import Mathlib

/-!
Verification of the `microui-rs` immediate-mode GUI core against its
natural-language specification.

The definitions below are a shallow embedding of `src/microui/src/lib.rs`,
`src/microui/src/const_vec.rs`, `src/microui/src/text_buf.rs`,
`src/microui/src/geometry.rs`, `src/microui/src/id.rs` and
`src/microui/src/style.rs`.

Modelling conventions:
* Rust `i32`/`isize` values are modelled as `Int` (no arithmetic in the
  modelled paths can overflow 32/64 bits on the inputs considered).
* Rust `u64` values (the FNV-1a hash state) are modelled as `Nat` with an
  explicit `% 2^64` at each wrapping operation.
* `ConstVec<T, N>` is modelled as a `List T` together with the capacity
  bound `N`; `push` returns `Option` where `none` models the
  `assert!(self.index < N, "Ran out of memory ...")` panic in
  `ConstVec::push`.  Every other source panic (`unwrap`, `panic!`,
  `unreachable!`, out-of-bounds indexing, usize underflow) is likewise
  modelled by `none` of an `Option` result.
* Bit-flag sets (`MouseState`, `ContainerOptions`) are modelled as `Nat`
  bit masks exactly as the `impl_flags!` macro implements them on
  `u8`/`u16`.
-/

namespace Microui

/-! ## Geometry (`geometry.rs`) -/

structure Vec2 where
  x : Int
  y : Int
deriving DecidableEq, Repr

structure Rect where
  x : Int
  y : Int
  w : Int
  h : Int
deriving DecidableEq, Repr

def vec2 (x y : Int) : Vec2 := ⟨x, y⟩

def rect (x y w h : Int) : Rect := ⟨x, y, w, h⟩

def Vec2.ZERO : Vec2 := vec2 0 0

def Rect.UNCLIPPED : Rect := rect 0 0 0x1000000 0x1000000

set_option maxRecDepth 8000 in
set_option maxHeartbeats 4000000 in
/-- `Rect::expand` from `geometry.rs`. -/
def Rect.expand (r : Rect) (n : Int) : Rect :=
  ⟨r.x - n, r.y - n, r.w + n * 2, r.h + n * 2⟩

/-- `Rect::intersect` from `geometry.rs`. -/
def Rect.intersect (r : Rect) (rhs : Rect) : Rect :=
  let x1 := max r.x rhs.x
  let y1 := max r.y rhs.y
  let x2 := max (min (r.x + r.w) (rhs.x + rhs.w)) x1
  let y2 := max (min (r.y + r.h) (rhs.y + rhs.h)) y1
  ⟨x1, y1, x2 - x1, y2 - y1⟩

/-- `Rect::overlaps` from `geometry.rs`: point containment test. -/
def Rect.overlaps (r : Rect) (p : Vec2) : Bool :=
  decide (r.x ≤ p.x) && decide (p.x < r.x + r.w) &&
  decide (r.y ≤ p.y) && decide (p.y < r.y + r.h)

/-! ## Identity (`id.rs`)

`Id::new(item, entropy)` runs the FNV-1a hasher seeded with `entropy`
(or the fixed offset basis when `entropy == 0`) over the byte stream
that `item`'s `Hash` implementation feeds to the hasher.  We model a
hash key directly as that byte stream (a `List Nat` of bytes). -/

def FNV_OFFSET_BASIS : Nat := 14695981039346656037

def FNV_PRIME : Nat := 1099511628211

def U64_MOD : Nat := 2 ^ 64

/-- One `Hasher::write` step of `Fnv1a`:
`self.0 = self.0.bitxor(byte as u64).wrapping_mul(1099511628211)`. -/
def fnv1aStep (h : Nat) (b : Nat) : Nat :=
  (Nat.xor h (b % 256) * FNV_PRIME) % U64_MOD

/-- `Fnv1a`'s `write` over a byte stream, starting from hash state `h`. -/
def fnv1aWrite (h : Nat) (bytes : List Nat) : Nat :=
  bytes.foldl fnv1aStep h

/-- `Fnv1a::new`: seed with `entropy` unless it is zero, in which case
use the 64-bit FNV offset basis. -/
def fnv1aNew (entropy : Nat) : Nat :=
  if entropy > 0 then entropy else FNV_OFFSET_BASIS

/-- `Id::new(item, entropy)` from `id.rs`. -/
def idNew (bytes : List Nat) (entropy : Nat) : Nat :=
  fnv1aWrite (fnv1aNew entropy) bytes

/-- `Context::create_id` from `lib.rs`: the entropy is the current
identifier-stack *depth* (`self.id_stack.len() as u64`). -/
def createId (idStack : List Nat) (bytes : List Nat) : Nat :=
  idNew bytes idStack.length

/-! ## Pool (`PoolItem` and `ConstVec::<PoolItem, N>::init`, `lib.rs`) -/

structure PoolItem where
  id : Nat
  last_update : Nat
deriving DecidableEq, Repr

instance : Inhabited PoolItem := ⟨⟨0, 0⟩⟩

/-- The body of the `for (i, item) in self.iter().enumerate()` loop in
`ConstVec::<PoolItem, N>::init`: scan for the slot with the smallest
`last_update` that is strictly below the running threshold `f`
(initially the current frame).  `i` is the enumeration counter. -/
def poolScan : Nat → Nat → Option Nat → List PoolItem → Nat × Option Nat
  | _, f, idx, [] => (f, idx)
  | i, f, idx, item :: rest =>
    if item.last_update < f then
      poolScan (i + 1) item.last_update (some i) rest
    else
      poolScan (i + 1) f idx rest

/-- `ConstVec::<PoolItem, N>::init(id, frame)`: returns the chosen slot
index (or `none` when every slot was touched this frame) together with
the updated pool contents. -/
def poolInit (items : List PoolItem) (id frame : Nat) : Option Nat × List PoolItem :=
  match (poolScan 0 frame none items).2 with
  | some i => (some i, items.set i ⟨id, frame⟩)
  | none => (none, items)

/-- `ConstVec::<PoolItem, N>::find_by_id`. -/
def poolFindById (items : List PoolItem) (id : Nat) : Option Nat :=
  items.findIdx? (fun x => x.id = id)

/-! ## Text buffer (`text_buf.rs`, `ConstStr::push_str`)

A `ConstStr<N>` is a byte buffer of capacity `N`; we model its contents
as a `List Nat` of bytes and a string as its UTF-8 byte sequence. -/

/-- The negation of the boundary test used by `push_str` and `pop_char`:
`(byte as i8) >= -0x40` holds exactly when the byte is *not* a UTF-8
continuation byte, i.e. when `byte < 0x80 || byte >= 0xC0`. -/
def isContByte (b : Nat) : Bool :=
  decide (128 ≤ b) && decide (b < 192)

/-- The `while len > 0 { if boundary(bytes[len]) break; len -= 1 }`
truncation loop of `ConstStr::push_str`, started at `len = free`. -/
def truncAux (bytes : List Nat) : Nat → Nat
  | 0 => 0
  | n + 1 => if isContByte (bytes.getD (n + 1) 0) then truncAux bytes n else n + 1

/-- The number of bytes `ConstStr::push_str` writes, given the free
space remaining in the buffer and the byte sequence of the pushed
string. -/
def pushStrCount (free : Nat) (bytes : List Nat) : Nat :=
  if bytes.length = 0 then 0
  else if free < bytes.length then truncAux bytes free
  else bytes.length

/-- `ConstStr::<N>::push_str`: returns the new buffer contents together
with the number of bytes written (the function's return value). -/
def pushStr (N : Nat) (buf : List Nat) (bytes : List Nat) : List Nat × Nat :=
  let count := pushStrCount (N - buf.length) bytes
  (buf ++ bytes.take count, count)

/-- Well-formed UTF-8 byte sequences (sequence of 1–4 byte characters,
characterised by the lead-byte ranges; this is what the code's
boundary-byte scan relies on). -/
inductive Utf8 : List Nat → Prop where
  | nil : Utf8 []
  | one {b : Nat} {rest : List Nat} : b < 128 → Utf8 rest → Utf8 (b :: rest)
  | two {b c : Nat} {rest : List Nat} :
      192 ≤ b → b < 224 → isContByte c = true → Utf8 rest → Utf8 (b :: c :: rest)
  | three {b c d : Nat} {rest : List Nat} :
      224 ≤ b → b < 240 → isContByte c = true → isContByte d = true →
      Utf8 rest → Utf8 (b :: c :: d :: rest)
  | four {b c d e : Nat} {rest : List Nat} :
      240 ≤ b → b < 248 → isContByte c = true → isContByte d = true →
      isContByte e = true → Utf8 rest → Utf8 (b :: c :: d :: e :: rest)

/-- Position `n` is a character boundary of `text`: the text splits
there into two well-formed UTF-8 sequences. -/
def Boundary (text : List Nat) (n : Nat) : Prop :=
  ∃ a b, text = a ++ b ∧ a.length = n ∧ Utf8 a ∧ Utf8 b

/-- The UTF-8 encoding of `k` repetitions of a fixed 2-byte character
(such as `é` = `0xC3 0xA9`), the scenario from the spec. -/
def twoByteRepeat (k : Nat) : List Nat :=
  (List.replicate k [195, 169]).flatten

/-! ## Style (`style.rs`) -/

structure Color where
  r : Nat
  g : Nat
  b : Nat
  a : Nat
deriving DecidableEq, Repr

def Color.rgb (r g b : Nat) : Color := ⟨r, g, b, 255⟩

inductive WidgetColor where
  | Text | Border | WindowBackground | TitleBackground | TitleText
  | PanelBackground | Button | ButtonHover | ButtonFocus
  | Base | BaseHover | BaseFocus | ScrollBase | ScrollThumb
deriving DecidableEq, Repr

/-- The default color table (`WidgetColors::default`). -/
def defaultColors : WidgetColor → Color
  | .Text => Color.rgb 230 230 230
  | .Border => Color.rgb 25 25 25
  | .WindowBackground => Color.rgb 50 50 50
  | .TitleBackground => Color.rgb 25 25 25
  | .TitleText => Color.rgb 240 240 240
  | .PanelBackground => Color.rgb 0 0 0
  | .Button => Color.rgb 75 75 75
  | .ButtonHover => Color.rgb 95 95 95
  | .ButtonFocus => Color.rgb 115 115 115
  | .Base => Color.rgb 30 30 30
  | .BaseHover => Color.rgb 35 35 35
  | .BaseFocus => Color.rgb 40 40 40
  | .ScrollBase => Color.rgb 43 43 43
  | .ScrollThumb => Color.rgb 30 30 30

/-- `Style` from `style.rs` (u16 fields modelled as `Nat`, `size` is a
pair of `i32`). The `font` handle is omitted: it carries no data used
by any verified path. -/
structure Style where
  size : Vec2
  padding : Nat
  spacing : Nat
  indent : Nat
  title_height : Nat
  footer_height : Nat
  scrollbar_size : Nat
  thumb_size : Nat
  colors : WidgetColor → Color

/-- `Style::default`. -/
def styleDefault : Style :=
  ⟨vec2 68 10, 5, 4, 24, 24, 20, 12, 8, defaultColors⟩

/-! ## Capacity constants (`lib.rs`) -/

def COMMAND_LIST_SIZE : Nat := 4096
def ROOT_LIST_SIZE : Nat := 32
def CONTAINER_STACK_SIZE : Nat := 32
def CLIP_STACK_SIZE : Nat := 32
def ID_STACK_SIZE : Nat := 32
def LAYOUT_STACK_SIZE : Nat := 16
def CONTAINER_POOL_SIZE : Nat := 48
def MAX_WIDTHS : Nat := 16

/-- `ConstVec::push` under the capacity bound `cap`: `none` models the
`assert!(self.index < N, "Ran out of memory ...")` panic. -/
def constPush {α : Type} (cap : Nat) (l : List α) (x : α) : Option (List α) :=
  if l.length < cap then some (l ++ [x]) else none

/-! ## Bit-flag sets (`impl_flags!`) -/

def flagIsSet (s : Nat) (b : Nat) : Bool := decide (s &&& b = b)

def flagSet (s : Nat) (b : Nat) : Nat := s ||| b

/-- `unset` on a `u8`-backed flag set: `self.0 &= !(btn as u8)`. -/
def flagUnset8 (s : Nat) (b : Nat) : Nat := s &&& Nat.xor b 255

def MOUSE_LEFT : Nat := 1
def MOUSE_RIGHT : Nat := 2

def OPT_NOINTERACT : Nat := 4
def OPT_NOFRAME : Nat := 8
def OPT_NOSCROLL : Nat := 32
def OPT_HOLDFOCUS : Nat := 256

/-! ## Layout (`Layout` and the layout methods of `Context`) -/

inductive LayoutType where
  | Relative
  | Absolute
deriving DecidableEq, Repr

structure Layout where
  body : Rect
  next : Rect
  pos : Vec2
  size : Vec2
  max : Vec2
  widths : List Int
  items : Nat
  item_index : Nat
  next_row : Int
  next_type : Option LayoutType
  indent : Int
deriving DecidableEq, Repr

/-- `Layout::default()`: all fields zeroed, 16 zero widths. -/
def layoutZero : Layout :=
  ⟨rect 0 0 0 0, rect 0 0 0 0, vec2 0 0, vec2 0 0, vec2 0 0,
   List.replicate MAX_WIDTHS 0, 0, 0, 0, none, 0⟩

instance : Inhabited Layout := ⟨layoutZero⟩

/-- `Layout::row`: copies the given widths into the prefix of the
16-entry widths array (when non-empty), records the item count and row
height, and resets the cursor to `(indent, next_row)`. `none` models
the `assert!(widths.len() <= MAX_WIDTHS)` panic. -/
def Layout.row (l : Layout) (widths : List Int) (height : Int) : Option Layout :=
  if widths.length > MAX_WIDTHS then none
  else
    let w := if widths.isEmpty then l.widths else widths ++ l.widths.drop widths.length
    some { l with
      widths := w
      items := widths.length
      pos := vec2 l.indent l.next_row
      size := vec2 l.size.x height
      item_index := 0 }

/-- `Layout::row_items`. -/
def layoutRowItems (l : Layout) (items : Nat) (height : Int) : Layout :=
  { l with
    items := items
    pos := vec2 l.indent l.next_row
    size := vec2 l.size.x height
    item_index := 0 }

/-- The common tail of `Context::layout_next`: advance the cursor by the
width plus spacing, fold the row bottom into `next_row`, translate the
result by the body origin, and fold the result into the running
max-extent. -/
def layoutFinish (style : Style) (l : Layout) (result : Rect) : Rect × Layout :=
  let spacing : Int := style.spacing
  let l := { l with
    pos := vec2 (l.pos.x + result.w + spacing) l.pos.y
    next_row := max l.next_row (result.y + result.h + spacing) }
  let result := { result with x := result.x + l.body.x, y := result.y + l.body.y }
  let l := { l with
    max := vec2 (max l.max.x (result.x + result.w)) (max l.max.y (result.y + result.h)) }
  (result, l)

/-- `Context::layout_next`, expressed as a transformation of the layout
stack's top entry (the `Context` method reads the top via
`last_mut().unwrap()` and additionally records `last_rect`). -/
def layoutNext (style : Style) (l : Layout) : Rect × Layout :=
  match l.next_type with
  | some ty =>
    let l2 := { l with next_type := none }
    match ty with
    | LayoutType.Absolute => (l2.next, l2)
    | LayoutType.Relative => layoutFinish style l2 l2.next
  | none =>
    let l := if l.item_index = l.items then layoutRowItems l l.items l.size.y else l
    let x0 := l.pos.x
    let y0 := l.pos.y
    let w0 : Int := if l.items > 0 then l.widths.getD l.item_index 0 else l.size.x
    let h0 : Int := l.size.y
    let w1 := if w0 = 0 then style.size.x + (style.padding : Int) * 2 else w0
    let h1 := if h0 = 0 then style.size.y + (style.padding : Int) * 2 else h0
    let w2 := if w1 < 0 then w1 + l.body.w - x0 + 1 else w1
    let h2 := if h1 < 0 then h1 + l.body.h - y0 + 1 else h1
    let l := { l with item_index := l.item_index + 1 }
    layoutFinish style l (rect x0 y0 w2 h2)

/-- `Context::push_layout` (the new stack entry it constructs). Note
that the source subtracts `scroll.y` from *both* coordinates of the
body origin. -/
def pushLayout (body : Rect) (scroll : Vec2) : Option Layout :=
  Layout.row
    { layoutZero with
      body := rect (body.x - scroll.y) (body.y - scroll.y) body.w body.h
      max := vec2 (-0x1000000) (-0x1000000) }
    [0] 0

/-! ## Commands and containers (`lib.rs`) -/

/-- The draw-command variants. The `Font` payload of `Text` is a unit
struct in this snapshot and is omitted; a text payload is its UTF-8
bytes. -/
inductive Command where
  | jump (dst : Nat)
  | clip (r : Rect)
  | rectCmd (r : Rect) (color : Color)
  | textCmd (pos : Vec2) (color : Color) (str : List Nat)
  | icon (id : Nat) (r : Rect) (color : Color)
deriving DecidableEq, Repr

/-- What `handle_commands` passes to the `CommandHandler`. -/
inductive DrawOut where
  | clip (r : Rect)
  | rectOut (r : Rect) (color : Color)
  | textOut (pos : Vec2) (color : Color) (str : List Nat)
  | iconOut (id : Nat) (r : Rect) (color : Color)
deriving DecidableEq, Repr

/-- `Container` from `lib.rs`. The source field `open` is a Lean
keyword, so it is named `openFlag` here. -/
structure Container where
  rect : Rect
  body : Rect
  content_size : Vec2
  scroll : Vec2
  zindex : Int
  openFlag : Bool
  head : Option Nat
  tail : Option Nat
deriving DecidableEq, Repr

def containerZeroed : Container :=
  ⟨rect 0 0 0 0, rect 0 0 0 0, vec2 0 0, vec2 0 0, 0, false, none, none⟩

instance : Inhabited Container := ⟨containerZeroed⟩

/-- The mutable state of `Context` (the fields exercised by the
verified paths; the text-input and number-edit buffers are omitted).
Mouse/key states are `u8` bit masks, container options `u16` bit
masks, both modelled as `Nat`. -/
structure Context where
  style : Style
  hover_id : Option Nat
  focus_id : Option Nat
  last_id : Option Nat
  last_rect : Rect
  last_zindex : Int
  updated_focus : Bool
  frame : Nat
  hover_root : Option Nat
  next_hover_root : Option Nat
  scroll_target : Option Nat
  command_list : List Command
  root_list : List Nat
  container_stack : List Nat
  clip_stack : List Rect
  id_stack : List Nat
  layout_stack : List Layout
  container_pool : List PoolItem
  containers : List Container
  treenode_pool : List PoolItem
  mouse_pos : Vec2
  last_mouse_pos : Vec2
  mouse_delta : Vec2
  scroll_delta : Vec2
  mouse_down : Nat
  mouse_pressed : Nat
  mouse_released : Nat
  key_down : Nat
  key_pressed : Nat

/-- The state `Context::new` produces (empty stacks, default style,
zeroed input, default-initialised pools and containers). -/
def ctxNew : Context where
  style := styleDefault
  hover_id := none
  focus_id := none
  last_id := none
  last_rect := rect 0 0 0 0
  last_zindex := 0
  updated_focus := false
  frame := 0
  hover_root := none
  next_hover_root := none
  scroll_target := none
  command_list := []
  root_list := []
  container_stack := []
  clip_stack := []
  id_stack := []
  layout_stack := []
  container_pool := List.replicate CONTAINER_POOL_SIZE default
  containers := List.replicate CONTAINER_POOL_SIZE containerZeroed
  treenode_pool := List.replicate CONTAINER_POOL_SIZE default
  mouse_pos := vec2 0 0
  last_mouse_pos := vec2 0 0
  mouse_delta := vec2 0 0
  scroll_delta := vec2 0 0
  mouse_down := 0
  mouse_pressed := 0
  mouse_released := 0
  key_down := 0
  key_pressed := 0

/-- Write through `self.containers[i]`; `none` models the
`Index`/`IndexMut` bounds assertion. -/
def setContainer (c : Context) (i : Nat) (f : Container → Container) : Option Context :=
  match c.containers.get? i with
  | some cnt => some { c with containers := c.containers.set i (f cnt) }
  | none => none

/-! ### Input (`lib.rs`, Input section) -/

def inputMouseMove (c : Context) (pos : Vec2) : Context :=
  { c with mouse_pos := pos }

/-- `Context::input_mouse_down`. Faithful to the source, which sets
`mouse_down` twice and never touches `mouse_pressed`. -/
def inputMouseDown (c : Context) (pos : Vec2) (btn : Nat) : Context :=
  let c := inputMouseMove c pos
  { c with mouse_down := flagSet (flagSet c.mouse_down btn) btn }

/-- `Context::input_mouse_up`. -/
def inputMouseUp (c : Context) (pos : Vec2) (btn : Nat) : Context :=
  let c := inputMouseMove c pos
  { c with
    mouse_down := flagUnset8 c.mouse_down btn
    mouse_released := flagSet c.mouse_released btn }

/-- `Context::input_scroll`: `self.scroll_delta = delta;` (assignment,
not accumulation). -/
def inputScroll (c : Context) (delta : Vec2) : Context :=
  { c with scroll_delta := delta }

/-! ### Queries and focus -/

def isFocused (c : Context) (id : Nat) : Bool := decide (c.focus_id = some id)

def isHovered (c : Context) (id : Nat) : Bool := decide (c.hover_id = some id)

def setFocus (c : Context) (id : Option Nat) : Context :=
  { c with focus_id := id, updated_focus := true }

def mousePressedAny (c : Context) : Bool := decide (c.mouse_pressed ≠ 0)

def mouseReleasedAny (c : Context) : Bool := decide (c.mouse_released ≠ 0)

def mouseDownAny (c : Context) : Bool := decide (c.mouse_down ≠ 0)

/-- `Context::get_clip_rect` before its `unwrap` (the caller decides
whether an empty clip stack is a panic). -/
def getClipRect (c : Context) : Option Rect := c.clip_stack.getLast?

/-- `Context::push_clip_rect`. -/
def pushClipRect (c : Context) (r : Rect) : Option Context := do
  let last ← getClipRect c
  let cs ← constPush CLIP_STACK_SIZE c.clip_stack (r.intersect last)
  pure { c with clip_stack := cs }

/-- `Context::pop_clip_rect` (popping an empty stack returns `None` and
is not a panic). -/
def popClipRect (c : Context) : Context :=
  { c with clip_stack := c.clip_stack.dropLast }

def popId (c : Context) : Context :=
  { c with id_stack := c.id_stack.dropLast }

/-- The loop of `Context::in_hover_root`: walk the open-container stack
from innermost outward; stop at the first root container (the ones with
`head` set). Stack entries are always valid container indices, so the
`getD` default is never read. -/
def inHoverRootAux (c : Context) (hr : Nat) : List Nat → Bool
  | [] => false
  | idx :: rest =>
    if idx = hr then true
    else if (c.containers.getD idx containerZeroed).head.isSome then false
    else inHoverRootAux c hr rest

def inHoverRoot (c : Context) : Bool :=
  match c.hover_root with
  | none => false
  | some hr => inHoverRootAux c hr c.container_stack.reverse

/-- `Context::is_mouse_over`. Mirrors the Rust short-circuit: the
`get_clip_rect().unwrap()` panic (modelled by `none`) can only fire
when the rectangle itself contains the pointer. -/
def isMouseOver (c : Context) (r : Rect) : Option Bool :=
  if r.overlaps c.mouse_pos then
    match getClipRect c with
    | none => none
    | some cr => some (cr.overlaps c.mouse_pos && inHoverRoot c)
  else
    some false

/-- `Context::update_widget`: the hover/focus resolution every widget
goes through. -/
def updateWidget (c0 : Context) (id : Nat) (r : Rect) (opt : Nat) : Option Context :=
  let currentlyFocused := isFocused c0 id
  let c := if currentlyFocused then { c0 with updated_focus := true } else c0
  if flagIsSet opt OPT_NOINTERACT then some c
  else
    match isMouseOver c r with
    | none => none
    | some mouseOver =>
      let c := if mouseOver && !mouseDownAny c then { c with hover_id := some id } else c
      let c :=
        if currentlyFocused then
          let c := if mousePressedAny c && !mouseOver then setFocus c none else c
          if !mouseDownAny c && flagIsSet opt OPT_HOLDFOCUS then setFocus c none else c
        else c
      some (
        if isHovered c id then
          if mousePressedAny c then setFocus c (some id)
          else if !mouseOver then { c with hover_id := none }
          else c
        else c)

/-! ### Drawing -/

/-- Append to the command list; `none` models the `ConstVec::push`
capacity assertion. -/
def cmdPush (c : Context) (cmd : Command) : Option Context := do
  let cl ← constPush COMMAND_LIST_SIZE c.command_list cmd
  pure { c with command_list := cl }

/-- `Context::draw_rect`. -/
def drawRect (c : Context) (r : Rect) (color : Color) : Option Context :=
  match getClipRect c with
  | none => none
  | some cr =>
    let r := r.intersect cr
    if r.w > 0 ∧ r.h > 0 then cmdPush c (Command.rectCmd r color) else some c

/-- `Context::draw_box`. -/
def drawBox (c : Context) (r : Rect) (color : Color) : Option Context := do
  let c ← drawRect c (rect (r.x + 1) r.y (r.w - 2) 1) color
  let c ← drawRect c (rect (r.x + 1) (r.y + r.h - 1) (r.w - 2) 1) color
  let c ← drawRect c (rect r.x r.y 1 r.h) color
  drawRect c (rect (r.x + r.w - 1) r.y 1 r.h) color

/-- The default `draw_frame` function installed by `Context::new`. -/
def drawFrame (c : Context) (r : Rect) (colorId : WidgetColor) : Option Context := do
  let c ← drawRect c r (c.style.colors colorId)
  match colorId with
  | .ScrollBase | .ScrollThumb | .TitleBackground => pure c
  | _ =>
    let borderColor := c.style.colors .Border
    if borderColor.a ≠ 0 then drawBox c (r.expand 1) borderColor else pure c

/-! ### Root containers, frame end, command drain -/

/-- Repoint the `Jump` stored at index `i` of the command list; `none`
models the `unreachable!()` arm (the patched slot must hold a `Jump`)
and the index assertion. -/
def patchJump (c : Context) (i : Nat) (dst : Nat) : Option Context :=
  match c.command_list.get? i with
  | some (Command.jump _) =>
    some { c with command_list := c.command_list.set i (Command.jump dst) }
  | _ => none

/-- `Context::begin_root_container`. -/
def beginRootContainer (c : Context) (cntIdx : Nat) : Option Context := do
  let cs ← constPush CONTAINER_STACK_SIZE c.container_stack cntIdx
  let rl ← constPush ROOT_LIST_SIZE c.root_list cntIdx
  let c := { c with container_stack := cs, root_list := rl }
  let c ← cmdPush c (Command.jump 0)
  let c ← setContainer c cntIdx (fun cnt => { cnt with head := some (c.command_list.length - 1) })
  let cnt ← c.containers.get? cntIdx
  let c :=
    if cnt.rect.overlaps c.mouse_pos &&
        (match c.next_hover_root with
         | none => true
         | some x => decide (cnt.zindex > (c.containers.getD x containerZeroed).zindex)) then
      { c with next_hover_root := some cntIdx }
    else c
  let cls ← constPush CLIP_STACK_SIZE c.clip_stack Rect.UNCLIPPED
  pure { c with clip_stack := cls }

/-- `Context::pop_container`. -/
def popContainer (c : Context) : Context :=
  let c :=
    match c.layout_stack.getLast? with
    | some layout =>
      let c := { c with layout_stack := c.layout_stack.dropLast }
      match c.container_stack.getLast? with
      | some idx =>
        { c with
          containers := c.containers.set idx
            { c.containers.getD idx containerZeroed with
              content_size := vec2 (layout.max.x - layout.body.x) (layout.max.y - layout.body.y) } }
      | none => c
    | none => c
  let c := { c with container_stack := c.container_stack.dropLast }
  popId c

/-- `Context::end_root_container`. -/
def endRootContainer (c : Context) : Option Context := do
  let index ← c.container_stack.getLast?
  let c ← cmdPush c (Command.jump 0)
  let c ← setContainer c index (fun cnt => { cnt with tail := some (c.command_list.length - 1) })
  let cnt ← c.containers.get? index
  let head ← cnt.head
  let c ← patchJump c head c.command_list.length
  let c := popClipRect c
  pure (popContainer c)

/-- Stable insertion used to model the z-index sort of the root list in
`end()` (the source uses an unstable slice sort; tie order between
equal z-indexes is unspecified there, and no verified claim depends on
it). -/
def insertByZ (key : Nat → Int) (x : Nat) : List Nat → List Nat
  | [] => [x]
  | y :: ys => if key x ≤ key y then x :: y :: ys else y :: insertByZ key x ys

def sortRootList (c : Context) : List Nat :=
  c.root_list.foldr (insertByZ (fun i => (c.containers.getD i containerZeroed).zindex)) []

/-- The `i == 0` arm of the splice loop in `end()`: patch the very
first command of the buffer (skipped when the buffer is empty; a
non-`Jump` first command is the
`panic!("Widgets must be drawn inside of a window or a popup.")`). -/
def spliceFirst (c : Context) (cntIdx : Nat) : Option Context :=
  match c.command_list with
  | [] => some c
  | Command.jump _ :: _ =>
    match c.containers.get? cntIdx with
    | none => none
    | some cnt =>
      match cnt.head with
      | none => none
      | some head => patchJump c 0 (head + 1)
  | _ => none

/-- The `i > 0` arm: the source reads `self.containers[cnt_idx - 1]` —
the container at *pool index* one less than the current root's pool
index (not the previous root in z-order); `cnt_idx = 0` underflows the
usize subtraction. -/
def spliceMiddle (c : Context) (cntIdx : Nat) : Option Context :=
  if cntIdx = 0 then none
  else
    match c.containers.get? (cntIdx - 1) with
    | none => none
    | some prev =>
      match prev.tail with
      | none => none
      | some tail =>
        match c.containers.get? cntIdx with
        | none => none
        | some cnt =>
          match cnt.head with
          | none => none
          | some head => patchJump c tail (head + 1)

/-- The `i == len - 1` extra step: the last root's tail jumps to the
end of the command list. -/
def spliceLast (c : Context) (cntIdx : Nat) : Option Context :=
  match c.containers.get? cntIdx with
  | none => none
  | some cnt =>
    match cnt.tail with
    | none => none
    | some tail => patchJump c tail c.command_list.length

/-- The `for i in 0..self.root_list.len()` splice loop of `end()`,
running over the sorted root list. -/
def spliceLoop : Context → Bool → List Nat → Option Context
  | c, _, [] => some c
  | c, isFirst, cntIdx :: rest =>
    match (if isFirst then spliceFirst c cntIdx else spliceMiddle c cntIdx) with
    | none => none
    | some c =>
      match (if rest.isEmpty then spliceLast c cntIdx else some c) with
      | none => none
      | some c => spliceLoop c false rest

/-- `Context::begin`. -/
def ctxBegin (c : Context) : Context :=
  { c with
    command_list := []
    root_list := []
    scroll_target := none
    hover_root := c.next_hover_root
    next_hover_root := none
    mouse_delta := vec2 (c.mouse_pos.x - c.last_mouse_pos.x) (c.mouse_pos.y - c.last_mouse_pos.y)
    frame := c.frame + 1 }

/-- The scroll-target block of `end()`: apply the pending scroll delta
once to the scroll-target container. -/
def endApplyScroll (c : Context) : Option Context :=
  match c.scroll_target with
  | some index =>
    match c.containers.get? index with
    | none => none
    | some cnt =>
      some { c with
        containers := c.containers.set index
          { cnt with
            scroll := vec2 (cnt.scroll.x + c.scroll_delta.x) (cnt.scroll.y + c.scroll_delta.y) } }
  | none => some c

/-- The focus-retention block of `end()`: drop focus unless some widget
refreshed it this frame. -/
def endRetainFocus (c : Context) : Context :=
  let c := if !c.updated_focus then { c with focus_id := none } else c
  { c with updated_focus := false }

/-- The deferred bring-to-front block of `end()`. -/
def endBringToFront (c : Context) : Option Context :=
  match c.next_hover_root with
  | some index =>
    if mousePressedAny c then
      match c.containers.get? index with
      | none => none
      | some cnt =>
        if cnt.zindex < c.last_zindex ∧ cnt.zindex ≥ 0 then
          some { c with
            last_zindex := c.last_zindex + 1
            containers := c.containers.set index { cnt with zindex := c.last_zindex + 1 } }
        else some c
    else some c
  | none => some c

/-- The per-frame input reset block of `end()`. -/
def endResetInput (c : Context) : Context :=
  { c with
    key_pressed := 0
    mouse_pressed := 0
    mouse_released := 0
    scroll_delta := vec2 0 0
    last_mouse_pos := c.mouse_pos }

/-- `Context::end`: stack-balance assertions, application of the
pending scroll delta to the scroll target, focus retention, deferred
bring-to-front, per-frame input reset, z-sort of the root list and the
jump-splice loop. -/
def ctxEnd (c : Context) : Option Context :=
  if c.container_stack = [] ∧ c.clip_stack = [] ∧ c.id_stack = [] ∧ c.layout_stack = [] then
    (endApplyScroll c).bind fun cA =>
      (endBringToFront (endRetainFocus cA)).bind fun cC =>
        let cD := endResetInput cC
        let cE := { cD with root_list := sortRootList cD }
        spliceLoop cE true cE.root_list
  else none

/-- The inner `while let Command::Jump(dst) = cmd` loop of
`handle_commands`: follow the jump chain from `cmd`. `some none` is
the `break 'outer` (a jump to the buffer length), `none` models a
jump cycle (source: non-termination) or a read past the live length
(source: reads uninitialised memory). -/
def resolveJump (cmds : List Command) : Nat → Command → Option (Option DrawOut)
  | _, Command.clip r => some (some (DrawOut.clip r))
  | _, Command.rectCmd r col => some (some (DrawOut.rectOut r col))
  | _, Command.textCmd pos col s => some (some (DrawOut.textOut pos col s))
  | _, Command.icon id r col => some (some (DrawOut.iconOut id r col))
  | fuel, Command.jump dst =>
    if dst = cmds.length then some none
    else
      match fuel, cmds.get? dst with
      | 0, _ => none
      | _ + 1, none => none
      | fuel + 1, some cmd => resolveJump cmds fuel cmd

/-- The outer loop of `handle_commands`: the cursor `i` advances by one
each iteration (the source does *not* move it to a jump's target); the
emitted commands are accumulated in order. -/
def handleAux (cmds : List Command) : Nat → Nat → List DrawOut → Option (List DrawOut)
  | 0, _, _ => none
  | fuel + 1, i, acc =>
    match cmds.get? i with
    | none => some acc
    | some cmd =>
      match resolveJump cmds (cmds.length + 1) cmd with
      | none => none
      | some none => some acc
      | some (some d) => handleAux cmds fuel (i + 1) (acc ++ [d])

/-- `Context::handle_commands`: the sequence of draw operations handed
to the `CommandHandler` for one frame. The fuel `cmds.length + 1`
bounds the outer loop, whose cursor increases by one per iteration and
stops at the live length. -/
def handleCommands (cmds : List Command) : Option (List DrawOut) :=
  handleAux cmds (cmds.length + 1) 0 []

/-! ### Scrollbars (`scrollbars` and the `scrollbar!` macro) -/

/-- Rust `i32` division truncates toward zero: `Int.div`. -/
def rustDiv (a b : Int) : Int := Int.tdiv a b

/-- Rust `i32::clamp(lo, hi)` for `lo ≤ hi`. -/
def clampInt (v lo hi : Int) : Int := if v < lo then lo else if v > hi then hi else v

/-- UTF-8 bytes of the id key strings of the two scrollbars. -/
def scrollIdV : List Nat := [33, 115, 99, 114, 111, 108, 108, 98, 97, 114, 118]
def scrollIdH : List Nat := [33, 115, 99, 114, 111, 108, 108, 98, 97, 114, 104]

/-- `scrollbar!(scrollbar_v, x, y, w, h)` as expanded (vertical). -/
def scrollbarV (c : Context) (cntIdx : Nat) (body : Rect) (contentSize : Vec2) : Option Context :=
  let maxscroll := contentSize.y - body.h
  if maxscroll > 0 ∧ body.h > 0 then do
    let id := createId c.id_stack scrollIdV
    let c := { c with last_id := some id }
    let base := { body with x := body.x + body.w, w := (c.style.scrollbar_size : Int) }
    let c ← updateWidget c id base 0
    let c ←
      if isFocused c id && flagIsSet c.mouse_down MOUSE_LEFT then
        setContainer c cntIdx (fun cnt =>
          let sy := cnt.scroll.y + rustDiv (c.mouse_delta.y * contentSize.y) base.h
          { cnt with scroll := vec2 cnt.scroll.x sy })
      else pure c
    let c ← setContainer c cntIdx (fun cnt =>
      { cnt with scroll := vec2 cnt.scroll.x (clampInt cnt.scroll.y 0 maxscroll) })
    let c ← drawFrame c base WidgetColor.ScrollBase
    let cnt ← c.containers.get? cntIdx
    let thumbH := max (c.style.thumb_size : Int) (rustDiv (base.h * body.h) contentSize.y)
    let thumb := { base with
      h := thumbH
      y := base.y + rustDiv (cnt.scroll.y * (base.h - thumbH)) maxscroll }
    let c ← drawFrame c thumb WidgetColor.ScrollThumb
    match isMouseOver c body with
    | none => none
    | some over => pure (if over then { c with scroll_target := some cntIdx } else c)
  else
    setContainer c cntIdx (fun cnt => { cnt with scroll := vec2 cnt.scroll.x 0 })

/-- `scrollbar!(scrollbar_h, y, x, h, w)` as expanded (horizontal; note
the literal `base.w = scrollbar_size` in the macro body). -/
def scrollbarH (c : Context) (cntIdx : Nat) (body : Rect) (contentSize : Vec2) : Option Context :=
  let maxscroll := contentSize.x - body.w
  if maxscroll > 0 ∧ body.w > 0 then do
    let id := createId c.id_stack scrollIdH
    let c := { c with last_id := some id }
    let base := { body with y := body.y + body.h, w := (c.style.scrollbar_size : Int) }
    let c ← updateWidget c id base 0
    let c ←
      if isFocused c id && flagIsSet c.mouse_down MOUSE_LEFT then
        setContainer c cntIdx (fun cnt =>
          let sx := cnt.scroll.x + rustDiv (c.mouse_delta.x * contentSize.x) base.w
          { cnt with scroll := vec2 sx cnt.scroll.y })
      else pure c
    let c ← setContainer c cntIdx (fun cnt =>
      { cnt with scroll := vec2 (clampInt cnt.scroll.x 0 maxscroll) cnt.scroll.y })
    let c ← drawFrame c base WidgetColor.ScrollBase
    let cnt ← c.containers.get? cntIdx
    let thumbW := max (c.style.thumb_size : Int) (rustDiv (base.w * body.w) contentSize.x)
    let thumb := { base with
      w := thumbW
      x := base.x + rustDiv (cnt.scroll.x * (base.w - thumbW)) maxscroll }
    let c ← drawFrame c thumb WidgetColor.ScrollThumb
    match isMouseOver c body with
    | none => none
    | some over => pure (if over then { c with scroll_target := some cntIdx } else c)
  else
    setContainer c cntIdx (fun cnt => { cnt with scroll := vec2 0 cnt.scroll.y })

/-- `Context::scrollbars`: computes the padded content size, resizes the
body to make room, then invokes both scrollbars — passing `Vec2::ZERO`
as their `content_size` argument, exactly as the source does at
`lib.rs:1696-1697`. Returns the updated context and the adjusted body. -/
def scrollbars (c : Context) (cntIdx : Nat) (body : Rect) : Option (Context × Rect) := do
  let scrollbarSize : Int := c.style.scrollbar_size
  let padding : Int := c.style.padding
  let cnt0 ← c.containers.get? cntIdx
  let contentSize := vec2 (cnt0.content_size.x + padding * 2) (cnt0.content_size.y + padding * 2)
  let c ← pushClipRect c body
  let cnt ← c.containers.get? cntIdx
  let body := if contentSize.y > cnt.body.h then { body with w := body.w - scrollbarSize } else body
  let body := if contentSize.x > cnt.body.w then { body with h := body.h - scrollbarSize } else body
  let c ← scrollbarV c cntIdx body Vec2.ZERO
  let c ← scrollbarH c cntIdx body Vec2.ZERO
  let c := popClipRect c
  pure (c, body)

/-! ## Concrete frame scenarios used by the theorems below -/

def colA : Color := ⟨1, 1, 1, 255⟩
def colB1 : Color := ⟨2, 2, 2, 255⟩
def colB2 : Color := ⟨3, 3, 3, 255⟩

/-- Frame state after `begin()` of a frame that declares two overlapping
root windows: container 0 (window A) has z-index 1, container 1
(window B) has z-index 2, as `get_container_impl` assigns on their
first appearance.  The pointer is away from both windows. -/
def c1Ctx0 : Context :=
  { ctxNew with
    frame := 1
    last_zindex := 2
    mouse_pos := vec2 (-10) (-10)
    container_pool := []
    treenode_pool := []
    containers :=
      [{ containerZeroed with rect := rect 0 0 100 100, openFlag := true, zindex := 1 },
       { containerZeroed with rect := rect 50 50 100 100, openFlag := true, zindex := 2 }] }

/-- The command-buffer protocol of the frame: window A emits one
rectangle, window B emits two, then `end()` splices. -/
def c1Run : Option Context := do
  let c ← beginRootContainer c1Ctx0 0
  let c ← drawRect c (rect 10 10 20 20) colA
  let c ← endRootContainer c
  let c ← beginRootContainer c 1
  let c ← drawRect c (rect 60 60 20 20) colB1
  let c ← drawRect c (rect 60 80 20 5) colB2
  let c ← endRootContainer c
  ctxEnd c

/-- Mid-frame state inside a root window (container 0): clip stack
holds the root's `UNCLIPPED` entry, the window is the hover root, the
pointer is at (5,5), and no button is held. -/
def c2Ctx0 : Context :=
  { ctxNew with
    frame := 1
    container_stack := [0]
    clip_stack := [Rect.UNCLIPPED]
    hover_root := some 0
    next_hover_root := some 0
    container_pool := []
    treenode_pool := []
    containers :=
      [{ containerZeroed with rect := rect 0 0 100 100, openFlag := true, zindex := 1, head := some 0 }]
    mouse_pos := vec2 5 5 }

/-- Frame n: the widget with id 42 at (0,0)-(10,10) runs
`update_widget` under the pointer with no buttons held. -/
def c2Frame1 : Option Context := updateWidget c2Ctx0 42 (rect 0 0 10 10) 0

/-- Between frames: the platform layer reports a left-button press via
`input_mouse_down` at the same position. -/
def c2Pressed : Option Context :=
  c2Frame1.map fun c => inputMouseDown c (vec2 5 5) MOUSE_LEFT

/-- Frame n+1: `begin()`, the window is re-entered (container and clip
stacks as the window re-declaration re-establishes them), and the same
widget runs `update_widget` again. -/
def c2Run : Option Context := do
  let c ← c2Pressed
  let c := { ctxBegin c with container_stack := [0], clip_stack := [Rect.UNCLIPPED] }
  updateWidget c 42 (rect 0 0 10 10) 0

/-- The `c2Ctx0` mid-frame state with the widget id 7 currently
focused (and the pointer over its rectangle, no buttons held, no press
registered). -/
def c3Ctx : Context := { c2Ctx0 with focus_id := some 7 }

/-- A container whose content (100×200 plus padding) overflows its
50×50 body in both axes; its persisted scroll offset is (7,9). -/
def c4Ctx : Context :=
  { ctxNew with
    clip_stack := [Rect.UNCLIPPED]
    container_pool := []
    treenode_pool := []
    containers :=
      [{ containerZeroed with
         rect := rect 0 0 50 50
         body := rect 0 0 50 50
         content_size := vec2 100 200
         scroll := vec2 7 9
         openFlag := true }] }

/-- An end-of-frame state whose scroll target is container 0 (scroll
offset (5,5)); all stacks already balanced. -/
def c6Ctx : Context :=
  { ctxNew with
    scroll_target := some 0
    container_pool := []
    treenode_pool := []
    containers := [{ containerZeroed with scroll := vec2 5 5 }] }

/-- A context whose command list is at capacity
(`COMMAND_LIST_SIZE = 4096` commands already recorded). -/
def c8Ctx : Context :=
  { ctxNew with
    clip_stack := [Rect.UNCLIPPED]
    command_list := List.replicate COMMAND_LIST_SIZE (Command.clip Rect.UNCLIPPED) }

/-- The same context with an empty command list. -/
def c8Small : Context := { ctxNew with clip_stack := [Rect.UNCLIPPED] }

/-- `layout_row(&[100, -1], 0)` followed by three `layout_next()` calls
on a freshly pushed container layout with the given body. -/
def c9Pipeline (style : Style) (body : Rect) : Option (Rect × Rect × Rect) := do
  let l ← pushLayout body Vec2.ZERO
  let l ← Layout.row l [100, -1] 0
  let (r1, l) := layoutNext style l
  let (r2, l) := layoutNext style l
  let (r3, _) := layoutNext style l
  pure (r1, r2, r3)

/-! ## Theorems

Helper lemmas first, then one theorem per specification claim (with a
witness instance where the theorem carries hypotheses, and a
counterexample where the claim fails on the code). -/

/-- If no item beats the running threshold, the scan keeps its state. -/
theorem poolScan_skip (items : List PoolItem) :
    ∀ (i f : Nat) (idx : Option Nat),
      (∀ it ∈ items, f ≤ it.last_update) → poolScan i f idx items = (f, idx) := by
  induction items with
  | nil => intro i f idx _; rfl
  | cons item rest ih =>
    intro i f idx h
    have h1 : f ≤ item.last_update := h item (List.mem_cons_self _ _)
    have h2 : ∀ it ∈ rest, f ≤ it.last_update := fun it hit => h it (List.mem_cons_of_mem _ hit)
    simp only [poolScan, Nat.not_lt.mpr h1, if_false]
    exact ih (i + 1) f idx h2

/-- If some item's `last_update` is strictly below the threshold, the
scan returns the first index attaining the minimum `last_update`,
which is strictly below the threshold and minimal over the whole
list. -/
theorem poolScan_found (items : List PoolItem) :
    ∀ (i f : Nat) (idx : Option Nat),
      (∃ it ∈ items, it.last_update < f) →
      ∃ k, k < items.length ∧
        poolScan i f idx items = ((items.getD k default).last_update, some (i + k)) ∧
        (items.getD k default).last_update < f ∧
        ∀ it ∈ items, (items.getD k default).last_update ≤ it.last_update := by
  induction items with
  | nil => intro i f idx h; simp at h
  | cons item rest ih =>
    intro i f idx h
    by_cases hlt : item.last_update < f
    · by_cases hrest : ∃ it ∈ rest, it.last_update < item.last_update
      · obtain ⟨k, hk, heq, hltk, hmin⟩ := ih (i + 1) item.last_update (some i) hrest
        refine ⟨k + 1, by simpa using Nat.succ_lt_succ hk, ?_, ?_, ?_⟩
        · have harith : i + 1 + k = i + (k + 1) := by omega
          simp only [poolScan, hlt, if_true, List.getD_cons_succ]
          rw [heq, harith]
        · simpa [List.getD_cons_succ] using lt_trans hltk hlt
        · intro it hit
          rcases List.mem_cons.mp hit with h2 | h2
          · subst h2
            simpa [List.getD_cons_succ] using le_of_lt hltk
          · simpa [List.getD_cons_succ] using hmin it h2
      · push_neg at hrest
        have hskip := poolScan_skip rest (i + 1) item.last_update (some i) hrest
        refine ⟨0, by simp, ?_, ?_, ?_⟩
        · simp only [poolScan, hlt, if_true, List.getD_cons_zero]
          rw [hskip]
          simp
        · simpa using hlt
        · intro it hit
          rcases List.mem_cons.mp hit with h2 | h2
          · subst h2
            simp
          · simpa using hrest it h2
    · have hrest : ∃ it ∈ rest, it.last_update < f := by
        obtain ⟨it, hit, hlt2⟩ := h
        rcases List.mem_cons.mp hit with rfl | h2
        · exact absurd hlt2 hlt
        · exact ⟨it, h2, hlt2⟩
      obtain ⟨k, hk, heq, hltk, hmin⟩ := ih (i + 1) f idx hrest
      refine ⟨k + 1, by simpa using Nat.succ_lt_succ hk, ?_, ?_, ?_⟩
      · have harith : i + 1 + k = i + (k + 1) := by omega
        simp only [poolScan, hlt, if_false, List.getD_cons_succ]
        rw [heq, harith]
      · simpa [List.getD_cons_succ] using hltk
      · intro it hit
        rcases List.mem_cons.mp hit with h2 | h2
        · subst h2
          have hle : f ≤ it.last_update := Nat.not_lt.mp hlt
          simp only [List.getD_cons_succ]
          omega
        · simpa [List.getD_cons_succ] using hmin it h2

/-- C5: `ConstVec::<PoolItem, N>::init(id, frame)` returns `none`
exactly when no slot has `last_update` strictly below the current
frame; otherwise it returns an index whose slot's `last_update` is
strictly below the frame and minimal over all slots (so eviction always
targets a least-recently-touched slot, never a more recently touched
one), and it reassigns exactly that slot to the new id with
`last_update = frame`. -/
theorem pool_init_lru (items : List PoolItem) (id frame : Nat) :
    ((poolInit items id frame).1 = none ↔ ∀ it ∈ items, frame ≤ it.last_update) ∧
    ∀ i, (poolInit items id frame).1 = some i →
      i < items.length ∧
      (items.getD i default).last_update < frame ∧
      (∀ it ∈ items, (items.getD i default).last_update ≤ it.last_update) ∧
      (poolInit items id frame).2 = items.set i ⟨id, frame⟩ := by
  by_cases h : ∀ it ∈ items, frame ≤ it.last_update
  · have hskip := poolScan_skip items 0 frame none h
    constructor
    · constructor
      · intro _
        exact h
      · intro _
        simp [poolInit, hskip]
    · intro i hi
      simp [poolInit, hskip] at hi
  · push_neg at h
    obtain ⟨k, hk, heq, hltk, hmin⟩ := poolScan_found items 0 frame none h
    have hres : (poolScan 0 frame none items).2 = some k := by
      rw [heq]
      simp
    constructor
    · constructor
      · intro hnone
        simp [poolInit, hres] at hnone
      · intro hall
        obtain ⟨it, hit, hlt⟩ := h
        exact absurd (hall it hit) (Nat.not_le.mpr hlt)
    · intro i hi
      have : i = k := by
        simp [poolInit, hres] at hi
        omega
      subst this
      exact ⟨hk, hltk, hmin, by simp [poolInit, hres]⟩

/-- Witness for C5 at a concrete pool: frame 4, slots last touched at
frames 3, 1 and 2; `init` must evict slot 1 (the oldest). -/
theorem pool_init_lru_witness :
    1 < ([⟨10, 3⟩, ⟨11, 1⟩, ⟨12, 2⟩] : List PoolItem).length ∧
    (([⟨10, 3⟩, ⟨11, 1⟩, ⟨12, 2⟩] : List PoolItem).getD 1 default).last_update < 4 ∧
    (∀ it ∈ ([⟨10, 3⟩, ⟨11, 1⟩, ⟨12, 2⟩] : List PoolItem),
      (([⟨10, 3⟩, ⟨11, 1⟩, ⟨12, 2⟩] : List PoolItem).getD 1 default).last_update ≤ it.last_update) ∧
    (poolInit [⟨10, 3⟩, ⟨11, 1⟩, ⟨12, 2⟩] 99 4).2 =
      ([⟨10, 3⟩, ⟨11, 1⟩, ⟨12, 2⟩] : List PoolItem).set 1 ⟨99, 4⟩ :=
  (pool_init_lru [⟨10, 3⟩, ⟨11, 1⟩, ⟨12, 2⟩] 99 4).2 1 (by decide)

/-- C10: `create_id` is deterministic — its result depends only on the
key's hashed bytes and the identifier-stack depth (used as the FNV-1a
seed), so any two calls with identifier stacks of equal depth (in
particular with identical stack contents, in the same frame or in
different frames) return the same id. -/
theorem create_id_deterministic (bytes s1 s2 : List Nat) (h : s1.length = s2.length) :
    createId s1 bytes = createId s2 bytes ∧
    createId s1 bytes = fnv1aWrite (fnv1aNew s1.length) bytes := by
  constructor
  · unfold createId idNew
    rw [h]
  · rfl

/-- Witness for C10: two id stacks with different contents but equal
depth yield the same id for the key bytes `[1,2,3]`. -/
theorem create_id_deterministic_witness :
    createId [5] [1, 2, 3] = createId [7] [1, 2, 3] ∧
    createId [5] [1, 2, 3] = fnv1aWrite (fnv1aNew 1) [1, 2, 3] :=
  create_id_deterministic [1, 2, 3] [5] [7] rfl

/-- The first byte of a well-formed UTF-8 sequence is never a
continuation byte. -/
theorem utf8_head_not_cont {b : Nat} {l : List Nat} (h : Utf8 (b :: l)) :
    isContByte b = false := by
  cases h with
  | one hb _ => simp [isContByte]; omega
  | two hb1 hb2 _ _ => simp [isContByte]; omega
  | three hb1 hb2 _ _ _ => simp [isContByte]; omega
  | four hb1 hb2 _ _ _ _ => simp [isContByte]; omega

theorem boundary_zero {t : List Nat} (h : Utf8 t) : Boundary t 0 :=
  ⟨[], t, rfl, rfl, Utf8.nil, h⟩

theorem boundary_length {t : List Nat} (h : Utf8 t) : Boundary t t.length :=
  ⟨t, [], by simp, rfl, h, Utf8.nil⟩

theorem getD_append_self (a b : List Nat) (d : Nat) :
    (a ++ b).getD a.length d = b.getD 0 d := by
  induction a with
  | nil => simp
  | cons x xs ih => simpa [List.getD_cons_succ] using ih

/-- At a character boundary the byte (if any) is not a continuation
byte. -/
theorem boundary_not_cont {t : List Nat} {n : Nat} (hb : Boundary t n) :
    isContByte (t.getD n 0) = false := by
  obtain ⟨a, b, rfl, rfl, _, hbu⟩ := hb
  rw [getD_append_self]
  cases b with
  | nil => decide
  | cons b0 bs => simpa using utf8_head_not_cont hbu

/-- Conversely, a position in a well-formed UTF-8 sequence whose byte
is not a continuation byte is a character boundary. -/
theorem not_cont_boundary {t : List Nat} (ht : Utf8 t) :
    ∀ n, n ≤ t.length → isContByte (t.getD n 0) = false → Boundary t n := by
  induction ht with
  | nil =>
    intro n hn _
    have : n = 0 := Nat.le_zero.mp hn
    subst this
    exact ⟨[], [], rfl, rfl, Utf8.nil, Utf8.nil⟩
  | @one b rest hb hu ih =>
    intro n hn hc
    rcases n with _ | n
    · exact boundary_zero (Utf8.one hb hu)
    · have hn2 : n ≤ rest.length := by simpa using hn
      have hc2 : isContByte (rest.getD n 0) = false := by
        simpa [List.getD_cons_succ] using hc
      obtain ⟨a2, b2, heq, hlen, ha2, hub2⟩ := ih n hn2 hc2
      exact ⟨b :: a2, b2, by simp [heq], by simp [hlen], Utf8.one hb ha2, hub2⟩
  | @two b c rest hb1 hb2 hcc hu ih =>
    intro n hn hc
    rcases n with _ | _ | n
    · exact boundary_zero (Utf8.two hb1 hb2 hcc hu)
    · simp only [List.getD_cons_succ, List.getD_cons_zero, hcc] at hc
      exact absurd hc (by decide)
    · have hn2 : n ≤ rest.length := by
        simp only [List.length_cons] at hn
        omega
      have hc2 : isContByte (rest.getD n 0) = false := by
        simpa [List.getD_cons_succ] using hc
      obtain ⟨a2, b2, heq, hlen, ha2, hub2⟩ := ih n hn2 hc2
      exact ⟨b :: c :: a2, b2, by simp [heq], by simp [hlen],
        Utf8.two hb1 hb2 hcc ha2, hub2⟩
  | @three b c d rest hb1 hb2 hcc hcd hu ih =>
    intro n hn hc
    rcases n with _ | _ | _ | n
    · exact boundary_zero (Utf8.three hb1 hb2 hcc hcd hu)
    · simp only [List.getD_cons_succ, List.getD_cons_zero, hcc] at hc
      exact absurd hc (by decide)
    · simp only [List.getD_cons_succ, List.getD_cons_zero, hcd] at hc
      exact absurd hc (by decide)
    · have hn2 : n ≤ rest.length := by
        simp only [List.length_cons] at hn
        omega
      have hc2 : isContByte (rest.getD n 0) = false := by
        simpa [List.getD_cons_succ] using hc
      obtain ⟨a2, b2, heq, hlen, ha2, hub2⟩ := ih n hn2 hc2
      exact ⟨b :: c :: d :: a2, b2, by simp [heq], by simp [hlen],
        Utf8.three hb1 hb2 hcc hcd ha2, hub2⟩
  | @four b c d e rest hb1 hb2 hcc hcd hce hu ih =>
    intro n hn hc
    rcases n with _ | _ | _ | _ | n
    · exact boundary_zero (Utf8.four hb1 hb2 hcc hcd hce hu)
    · simp only [List.getD_cons_succ, List.getD_cons_zero, hcc] at hc
      exact absurd hc (by decide)
    · simp only [List.getD_cons_succ, List.getD_cons_zero, hcd] at hc
      exact absurd hc (by decide)
    · simp only [List.getD_cons_succ, List.getD_cons_zero, hce] at hc
      exact absurd hc (by decide)
    · have hn2 : n ≤ rest.length := by
        simp only [List.length_cons] at hn
        omega
      have hc2 : isContByte (rest.getD n 0) = false := by
        simpa [List.getD_cons_succ] using hc
      obtain ⟨a2, b2, heq, hlen, ha2, hub2⟩ := ih n hn2 hc2
      exact ⟨b :: c :: d :: e :: a2, b2, by simp [heq], by simp [hlen],
        Utf8.four hb1 hb2 hcc hcd hce ha2, hub2⟩

theorem truncAux_le (bytes : List Nat) : ∀ n, truncAux bytes n ≤ n := by
  intro n
  induction n with
  | zero => simp [truncAux]
  | succ n ih =>
    simp only [truncAux]
    split
    · exact Nat.le_succ_of_le ih
    · exact Nat.le_refl _

theorem truncAux_zero_or_not_cont (bytes : List Nat) :
    ∀ n, truncAux bytes n = 0 ∨ isContByte (bytes.getD (truncAux bytes n) 0) = false := by
  intro n
  induction n with
  | zero => left; rfl
  | succ n ih =>
    simp only [truncAux]
    by_cases hc : isContByte (bytes.getD (n + 1) 0) = true
    · rw [if_pos hc]
      exact ih
    · rw [if_neg hc]
      right
      simpa using hc

theorem truncAux_maximal (bytes : List Nat) :
    ∀ n m, m ≤ n → isContByte (bytes.getD m 0) = false → m ≤ truncAux bytes n := by
  intro n
  induction n with
  | zero =>
    intro m h _
    simpa [truncAux] using h
  | succ n ih =>
    intro m hm hc
    simp only [truncAux]
    by_cases hcase : isContByte (bytes.getD (n + 1) 0) = true
    · rw [if_pos hcase]
      rcases Nat.lt_or_ge m (n + 1) with hlt | hge
      · exact ih m (by omega) hc
      · have hmeq : m = n + 1 := by omega
        subst hmeq
        have hcontra : isContByte (bytes.getD (n + 1) 0) = true := hcase
        rw [hc] at hcontra
        exact absurd hcontra (by decide)
    · rw [if_neg hcase]
      exact hm

/-- The full specification of `pushStrCount` for well-formed UTF-8
input: the count fits, never splits a character (it is a boundary), and
is the largest boundary position that fits. -/
theorem pushStrCount_spec (free : Nat) (text : List Nat) (hutf : Utf8 text) :
    pushStrCount free text ≤ free ∧
    pushStrCount free text ≤ text.length ∧
    Boundary text (pushStrCount free text) ∧
    ∀ n, n ≤ free → n ≤ text.length → Boundary text n → n ≤ pushStrCount free text := by
  unfold pushStrCount
  by_cases hempty : text.length = 0
  · rw [if_pos hempty]
    have : text = [] := List.length_eq_zero.mp hempty
    subst this
    refine ⟨Nat.zero_le _, Nat.zero_le _, boundary_zero hutf, ?_⟩
    intro n _ hn2 _
    simpa using hn2
  · rw [if_neg hempty]
    by_cases hfit : free < text.length
    · rw [if_pos hfit]
      refine ⟨truncAux_le text free,
        le_trans (truncAux_le text free) (le_of_lt hfit), ?_, ?_⟩
      · rcases truncAux_zero_or_not_cont text free with h0 | hnc
        · rw [h0]
          exact boundary_zero hutf
        · exact not_cont_boundary hutf _
            (le_trans (truncAux_le text free) (le_of_lt hfit)) hnc
      · intro n hn1 _ hb
        exact truncAux_maximal text free n hn1 (boundary_not_cont hb)
    · rw [if_neg hfit]
      refine ⟨by omega, le_refl _, boundary_length hutf, ?_⟩
      intro n _ hn2 _
      exact hn2

theorem twoByteRepeat_succ (k : Nat) :
    twoByteRepeat (k + 1) = 195 :: 169 :: twoByteRepeat k := by
  simp [twoByteRepeat, List.replicate_succ]

theorem twoByteRepeat_length (k : Nat) : (twoByteRepeat k).length = 2 * k := by
  induction k with
  | zero => rfl
  | succ k ih =>
    rw [twoByteRepeat_succ]
    simp only [List.length_cons]
    omega

theorem twoByteRepeat_getD (k : Nat) : ∀ i, i < 2 * k →
    (twoByteRepeat k).getD i 0 = if i % 2 = 0 then 195 else 169 := by
  induction k with
  | zero => intro i h; omega
  | succ k ih =>
    intro i h
    rw [twoByteRepeat_succ]
    rcases i with _ | _ | i
    · simp
    · simp
    · simp only [List.getD_cons_succ]
      rw [ih i (by omega)]
      have hpar : (i + 1 + 1) % 2 = i % 2 := by omega
      rw [hpar]

theorem twoByteRepeat_utf8 (k : Nat) : Utf8 (twoByteRepeat k) := by
  induction k with
  | zero => exact Utf8.nil
  | succ k ih =>
    rw [twoByteRepeat_succ]
    exact Utf8.two (by omega) (by omega) (by decide) ih

/-- The spec scenario: a string of 2-byte characters pushed into an
empty buffer of capacity `M` that cannot hold all of it writes exactly
`2 * (M / 2)` bytes. -/
theorem pushStrCount_twoByte (k M : Nat) (h : M < 2 * k) :
    pushStrCount M (twoByteRepeat k) = 2 * (M / 2) := by
  have hlen := twoByteRepeat_length k
  have hnonzero : ¬ (twoByteRepeat k).length = 0 := by omega
  unfold pushStrCount
  rw [if_neg hnonzero, if_pos (by omega)]
  have h1 := truncAux_le (twoByteRepeat k) M
  have h2 : 2 * (M / 2) ≤ truncAux (twoByteRepeat k) M := by
    apply truncAux_maximal
    · omega
    · rw [twoByteRepeat_getD k _ (by omega)]
      have hpar : (2 * (M / 2)) % 2 = 0 := by omega
      rw [if_pos hpar]
      decide
  have h3 : truncAux (twoByteRepeat k) M ≤ 2 * (M / 2) := by
    rcases truncAux_zero_or_not_cont (twoByteRepeat k) M with h0 | hnc
    · omega
    · rw [twoByteRepeat_getD k _ (by omega)] at hnc
      by_cases hpar : truncAux (twoByteRepeat k) M % 2 = 0
      · omega
      · rw [if_neg hpar] at hnc
        simp [isContByte] at hnc
  omega

/-- C7: `ConstStr::push_str` never panics (the model is total and the
write always fits the buffer), returns a byte count that fits the free
space, whose prefix is what gets appended; that count is always a UTF-8
character boundary of the pushed string (no proper prefix of a
multi-byte character is ever stored) and is the longest boundary prefix
that fits; and in the spec's scenario (2-byte characters into an empty
`N`-byte buffer with `N` falling mid-character) exactly
`floor(N/2)*2` bytes are written. -/
theorem push_str_truncation (N : Nat) (buf text : List Nat) (hutf : Utf8 text) :
    (pushStr N buf text).2 ≤ N - buf.length ∧
    (pushStr N buf text).2 ≤ text.length ∧
    (pushStr N buf text).1 = buf ++ text.take (pushStr N buf text).2 ∧
    Boundary text (pushStr N buf text).2 ∧
    (∀ n, n ≤ N - buf.length → n ≤ text.length →
      Boundary text n → n ≤ (pushStr N buf text).2) ∧
    (∀ k M, M < 2 * k → (pushStr M [] (twoByteRepeat k)).2 = 2 * (M / 2)) := by
  have hs := pushStrCount_spec (N - buf.length) text hutf
  refine ⟨hs.1, hs.2.1, rfl, hs.2.2.1, hs.2.2.2, ?_⟩
  intro k M hkM
  simpa [pushStr] using pushStrCount_twoByte k M hkM

/-- Witness for C7 at the spec's concrete scenario: four 2-byte
characters (8 bytes) pushed into an empty 7-byte buffer write exactly
6 bytes, a character boundary. -/
theorem push_str_truncation_witness :
    (pushStr 7 [] (twoByteRepeat 4)).2 ≤ 7 - ([] : List Nat).length ∧
    Boundary (twoByteRepeat 4) (pushStr 7 [] (twoByteRepeat 4)).2 ∧
    (pushStr 7 [] (twoByteRepeat 4)).2 = 6 := by
  have h := push_str_truncation 7 [] (twoByteRepeat 4) (twoByteRepeat_utf8 4)
  refine ⟨h.1, h.2.2.2.1, ?_⟩
  have h6 := h.2.2.2.2.2 4 7 (by decide)
  omega

/-- C1: evaluation of the two-window frame. `end()` patches the jumps
exactly as specified (first command jumps to A's head+1 = 1, A's tail
jumps to B's head+1 = 4, B's tail jumps to the buffer length 7), but
`handle_commands` does not deliver each emitted command exactly once:
because the drain loop follows a `Jump` without moving its cursor, it
delivers A's rectangle twice and drops B's second rectangle — the drained
stream is `[A, A, B1]` instead of `[A, B1, B2]`. -/
theorem splice_patch_ok_but_drain_wrong :
    c1Run.map Context.command_list = some
      [Command.jump 1,
       Command.rectCmd (rect 10 10 20 20) colA,
       Command.jump 4,
       Command.jump 7,
       Command.rectCmd (rect 60 60 20 20) colB1,
       Command.rectCmd (rect 60 80 20 5) colB2,
       Command.jump 7] ∧
    handleCommands
      [Command.jump 1,
       Command.rectCmd (rect 10 10 20 20) colA,
       Command.jump 4,
       Command.jump 7,
       Command.rectCmd (rect 60 60 20 20) colB1,
       Command.rectCmd (rect 60 80 20 5) colB2,
       Command.jump 7] = some
      [DrawOut.rectOut (rect 10 10 20 20) colA,
       DrawOut.rectOut (rect 10 10 20 20) colA,
       DrawOut.rectOut (rect 60 60 20 20) colB1] ∧
    ([DrawOut.rectOut (rect 10 10 20 20) colA,
      DrawOut.rectOut (rect 10 10 20 20) colA,
      DrawOut.rectOut (rect 60 60 20 20) colB1] : List DrawOut) ≠
      [DrawOut.rectOut (rect 10 10 20 20) colA,
       DrawOut.rectOut (rect 60 60 20 20) colB1,
       DrawOut.rectOut (rect 60 80 20 5) colB2] := by
  refine ⟨by rfl, by rfl, by decide⟩

set_option maxRecDepth 8000 in
set_option maxHeartbeats 4000000 in
/-- C2: `input_mouse_down` never registers a press. In the two-frame
trace the widget is hovered (frame n), a left press arrives through
`input_mouse_down` between the frames, yet `mouse_pressed` stays `0`
(the function sets `mouse_down` twice instead of setting
`mouse_pressed`), so `update_widget` in frame n+1 does not move focus
to the hovered widget — `focus_id` stays `none` although the claim
requires it to become `some 42`. -/
theorem input_mouse_down_never_sets_pressed :
    (c2Frame1.map fun c => c.hover_id) = some (some 42) ∧
    (c2Pressed.map fun c => (c.mouse_pressed, c.mouse_down)) = some (0, 1) ∧
    (c2Run.map fun c => (c.focus_id, c.hover_id)) = some (none, some 42) := by
  refine ⟨by rfl, by rfl, by rfl⟩

set_option maxRecDepth 8000 in
set_option maxHeartbeats 4000000 in
/-- C3: the `HoldFocus` test in `update_widget` is inverted. With the
pointer over the focused widget, no button down and no press this
frame, a widget declared *with* `HoldFocus` loses focus while a widget
declared *without* it keeps focus — the exact opposite of the claim
(and of what `textbox_raw` relies on when it sets `HoldFocus`). -/
theorem hold_focus_check_inverted :
    ((updateWidget c3Ctx 7 (rect 0 0 10 10) OPT_HOLDFOCUS).map fun c => c.focus_id) =
      some none ∧
    ((updateWidget c3Ctx 7 (rect 0 0 10 10) 0).map fun c => c.focus_id) =
      some (some 7) := by
  refine ⟨by rfl, by rfl⟩

set_option maxRecDepth 8000 in
set_option maxHeartbeats 4000000 in
/-- C6 counterexample: two `input_scroll` calls between frames do not
sum. With a pending scroll of (1,2) overwritten by (10,20) and an
initial scroll offset (5,5), `end()` leaves the target container at
(15,25) — the last delta applied once — not at (16,27) as the additive
claim requires. -/
theorem input_scroll_not_additive_cex :
    ((ctxEnd (inputScroll (inputScroll c6Ctx (vec2 1 2)) (vec2 10 20))).map
      fun c => (c.containers.getD 0 containerZeroed).scroll) = some (vec2 15 25) ∧
    vec2 15 25 ≠ vec2 16 27 := by
  refine ⟨by rfl, by decide⟩

/-- A draw on a context whose clipped rectangle is non-empty panics
(`none`) when the command list is at capacity. -/
theorem drawRect_full_aux (c : Context) (r : Rect) (col : Color) (cr : Rect)
    (hclip : getClipRect c = some cr)
    (hpos : 0 < (r.intersect cr).w ∧ 0 < (r.intersect cr).h)
    (hfull : ¬ c.command_list.length < COMMAND_LIST_SIZE) :
    drawRect c r col = none := by
  simp only [drawRect, hclip]
  rw [if_pos hpos]
  simp only [cmdPush, constPush]
  rw [if_neg hfull]
  rfl

/-- C8 counterexample: with the command list at capacity (4096
commands), `draw_rect` with a non-empty clipped rectangle is *fatal* —
`ConstVec::push` hits its `assert!(self.index < N, "Ran out of
memory ...")` and the program aborts (modelled by `none`), refuting
the claim that the operation is non-fatal. -/
theorem draw_rect_full_buffer_cex :
    drawRect c8Ctx (rect 0 0 10 10) colA = none := by
  apply drawRect_full_aux c8Ctx (rect 0 0 10 10) colA Rect.UNCLIPPED rfl (by decide)
  show ¬ (List.replicate COMMAND_LIST_SIZE (Command.clip Rect.UNCLIPPED)).length < COMMAND_LIST_SIZE
  simp

/-- C8 (amended): pushing a draw command whose clipped rectangle is
non-empty is fatal exactly at capacity — with `COMMAND_LIST_SIZE`
commands already recorded the `ConstVec::push` assertion aborts the
program (`none`), and below capacity the command is appended normally.
Graceful degradation applies to the container/treenode pools and text
buffers, not to the command list. -/
theorem draw_rect_capacity (c : Context) (r : Rect) (col : Color) (cr : Rect)
    (hclip : getClipRect c = some cr)
    (hpos : 0 < (r.intersect cr).w ∧ 0 < (r.intersect cr).h) :
    (c.command_list.length = COMMAND_LIST_SIZE → drawRect c r col = none) ∧
    (c.command_list.length < COMMAND_LIST_SIZE →
      drawRect c r col = some
        { c with command_list := c.command_list ++ [Command.rectCmd (r.intersect cr) col] }) := by
  constructor
  · intro hlen
    exact drawRect_full_aux c r col cr hclip hpos (by omega)
  · intro hlen
    simp only [drawRect, hclip]
    rw [if_pos hpos]
    simp only [cmdPush, constPush]
    rw [if_pos hlen]
    rfl

/-- Witness for C8: at the full context the draw panics; at the empty
one it appends the clipped rectangle command. -/
theorem draw_rect_capacity_witness :
    drawRect c8Ctx (rect 0 0 10 10) colB1 = none ∧
    drawRect c8Small (rect 0 0 10 10) colB1 = some
      { c8Small with command_list :=
          [Command.rectCmd ((rect 0 0 10 10).intersect Rect.UNCLIPPED) colB1] } := by
  constructor
  · refine (draw_rect_capacity c8Ctx (rect 0 0 10 10) colB1 Rect.UNCLIPPED rfl
      (by decide)).1 ?_
    show (List.replicate COMMAND_LIST_SIZE (Command.clip Rect.UNCLIPPED)).length =
      COMMAND_LIST_SIZE
    simp
  · exact (draw_rect_capacity c8Small (rect 0 0 10 10) colB1 Rect.UNCLIPPED rfl
      (by decide)).2 (by decide)

/-- C9 counterexample: with the default style (spacing 4) and a body
300 wide, the two rectangles of the row `[100, -1]` have widths 100 and
196, summing to 296 — not the body width 300 as claimed (the sum is
body width minus spacing). -/
theorem layout_row_width_sum_cex :
    ((c9Pipeline styleDefault (rect 0 0 300 400)).map fun t => t.1.w + t.2.1.w) =
      some 296 ∧
    (296 : Int) ≠ 300 := by
  refine ⟨by rfl, by decide⟩

set_option maxHeartbeats 6000000 in
/-- C9 (amended): after `layout_row(&[100, -1], 0)` the first
`layout_next()` returns a rectangle of width 100 and the second a
rectangle of width `body.w − 100 − spacing` (so together they span the
body width with one inter-item spacing between them and their widths
sum to `body.w − spacing`, not `body.w`); both get the style's default
height `size.y + 2·padding`; the third call starts a new row at
`x = body.x` and `y = body.y + row_height + spacing`. -/
theorem layout_row_fill_remaining (style : Style) (body : Rect) (hy : 0 ≤ style.size.y) :
    c9Pipeline style body = some
      (rect body.x body.y 100 (style.size.y + (style.padding : Int) * 2),
       rect (body.x + 100 + (style.spacing : Int)) body.y
         (body.w - 100 - (style.spacing : Int)) (style.size.y + (style.padding : Int) * 2),
       rect body.x (body.y + (style.size.y + (style.padding : Int) * 2) + (style.spacing : Int))
         100 (style.size.y + (style.padding : Int) * 2)) := by
  have hpad : (0 : Int) ≤ (style.padding : Int) := Int.ofNat_nonneg _
  have hsp : (0 : Int) ≤ (style.spacing : Int) := Int.ofNat_nonneg _
  simp only [c9Pipeline, pushLayout, Layout.row, layoutZero, layoutNext, layoutRowItems,
    layoutFinish, Vec2.ZERO, vec2, rect, MAX_WIDTHS, Option.bind_eq_bind]
  simp
  rw [if_neg (by omega : ¬ style.size.y + (style.padding : Int) * 2 < 0)]
  rw [sup_eq_right.mpr
    (by omega : (0 : Int) ≤ style.size.y + (style.padding : Int) * 2 + (style.spacing : Int))]
  omega

/-- Witness for C9 at the default style (padding 5, spacing 4) and a
300×400 body: rectangles (0,0,100,20), (104,0,196,20) and a third at
(0,24). -/
theorem layout_row_fill_remaining_witness :
    c9Pipeline styleDefault (rect 0 0 300 400) = some
      (rect 0 0 100 20, rect 104 0 196 20, rect 0 24 100 20) := by
  exact layout_row_fill_remaining styleDefault (rect 0 0 300 400) (by decide)

theorem get?_some_lt {α : Type} {l : List α} {i : Nat} {a : α} (h : l.get? i = some a) :
    i < l.length := by
  by_contra hn
  rw [List.get?_eq_none.mpr (by omega)] at h
  cases h

theorem get?_set_self {α : Type} {l : List α} {i : Nat} (a : α) (h : i < l.length) :
    (l.set i a).get? i = some a := by
  rw [List.get?_eq_getElem?, List.getElem?_set_eq_of_lt a h]

/-- With a zero content size the vertical scrollbar always takes its
else branch: reset `scroll.y` to 0 and draw nothing. -/
theorem scrollbarV_zero (c : Context) (idx : Nat) (body : Rect) (cnt : Container)
    (hget : c.containers.get? idx = some cnt) :
    scrollbarV c idx body Vec2.ZERO = some
      { c with containers := c.containers.set idx { cnt with scroll := vec2 cnt.scroll.x 0 } } := by
  unfold scrollbarV
  rw [if_neg ?hneg]
  case hneg =>
    rintro ⟨h1, h2⟩
    simp only [Vec2.ZERO, vec2] at h1
    omega
  simp only [setContainer, hget]

/-- Same for the horizontal scrollbar: reset `scroll.x` to 0. -/
theorem scrollbarH_zero (c : Context) (idx : Nat) (body : Rect) (cnt : Container)
    (hget : c.containers.get? idx = some cnt) :
    scrollbarH c idx body Vec2.ZERO = some
      { c with containers := c.containers.set idx { cnt with scroll := vec2 0 cnt.scroll.y } } := by
  unfold scrollbarH
  rw [if_neg ?hneg]
  case hneg =>
    rintro ⟨h1, h2⟩
    simp only [Vec2.ZERO, vec2] at h1
    omega
  simp only [setContainer, hget]

theorem scrollbarVH_zero (c : Context) (idx : Nat) (b2 : Rect) (cnt : Container)
    (hget : c.containers.get? idx = some cnt) (k : Context → Option (Context × Rect)) :
    ((scrollbarV c idx b2 Vec2.ZERO).bind fun c2 => (scrollbarH c2 idx b2 Vec2.ZERO).bind k) =
      k { c with containers := c.containers.set idx { cnt with scroll := vec2 0 0 } } := by
  rw [scrollbarV_zero c idx b2 cnt hget, Option.some_bind,
    scrollbarH_zero _ idx b2 { cnt with scroll := vec2 cnt.scroll.x 0 }
      (get?_set_self _ (by simpa using get?_some_lt hget)), Option.some_bind]
  refine congrArg k ?_
  simp [List.set_set, vec2]

/-- C4: because `Context::scrollbars` passes `Vec2::ZERO` as the
content size to `scrollbar_v`/`scrollbar_h` (`lib.rs:1696-1697`),
each axis computes `maxscroll = 0 − body_extent ≤ 0` regardless of the
container's actual content size, so for *every* container — including
one whose content overflows its body — the scroll offset is always
reset to (0,0), no scrollbar base or thumb command is ever emitted
(the command list is unchanged; only the container's scroll field
changes), and dragging can never occur. -/
theorem scrollbars_dead (c : Context) (idx : Nat) (body : Rect) (cnt : Container)
    (hget : c.containers.get? idx = some cnt)
    (hclip : c.clip_stack ≠ [])
    (hcap : c.clip_stack.length < CLIP_STACK_SIZE) :
    (scrollbars c idx body).map Prod.fst = some
      { c with containers := c.containers.set idx { cnt with scroll := vec2 0 0 } } := by
  rcases hlast : c.clip_stack.getLast? with _ | last
  · rw [List.getLast?_eq_none_iff] at hlast
    exact absurd hlast hclip
  have hpush : pushClipRect c body = some
      { c with clip_stack := c.clip_stack ++ [body.intersect last] } := by
    simp only [pushClipRect, getClipRect, hlast, constPush, Option.bind_eq_bind,
      Option.some_bind]
    rw [if_pos hcap]
    rfl
  have hget1 :
      ({ c with clip_stack := c.clip_stack ++ [body.intersect last] } : Context).containers.get?
        idx = some cnt := hget
  simp only [scrollbars, hget, hpush, Option.bind_eq_bind, Option.some_bind]
  rw [scrollbarVH_zero _ idx _ cnt hget1]
  simp [popClipRect, List.dropLast_concat]

/-- Witness for C4 at a concrete container: content 100×200 (plus
padding) overflows the 50×50 body in both axes, yet the scroll offset
(7,9) is reset to (0,0) and the command list stays untouched. -/
theorem scrollbars_dead_witness :
    (scrollbars c4Ctx 0 (rect 0 0 50 50)).map Prod.fst = some
      { c4Ctx with
        containers := c4Ctx.containers.set 0
          { containerZeroed with
            rect := rect 0 0 50 50
            body := rect 0 0 50 50
            content_size := vec2 100 200
            scroll := vec2 0 0
            openFlag := true } } := by
  exact scrollbars_dead c4Ctx 0 (rect 0 0 50 50)
    { containerZeroed with
      rect := rect 0 0 50 50
      body := rect 0 0 50 50
      content_size := vec2 100 200
      scroll := vec2 7 9
      openFlag := true } rfl (by decide) (by decide)

theorem get?_some_getD {α : Type} {l : List α} {i : Nat} {a : α} (h : l.get? i = some a)
    (d : α) : l.getD i d = a := by
  rw [List.getD, h]
  rfl

theorem getD_set_ne {α : Type} {l : List α} {i j : Nat} (h : i ≠ j) (a d : α) :
    (l.set i a).getD j d = l.getD j d := by
  rw [List.getD, List.get?_eq_getElem?, List.getElem?_set_ne h, ← List.get?_eq_getElem?,
    ← List.getD]

/-- Patching a jump only changes the command list. -/
theorem patchJump_fields {c c2 : Context} {i dst : Nat} (h : patchJump c i dst = some c2) :
    c2.containers = c.containers ∧ c2.scroll_delta = c.scroll_delta := by
  unfold patchJump at h
  split at h
  · injection h with h2
    subst h2
    exact ⟨rfl, rfl⟩
  · cases h

theorem spliceFirst_fields {c c2 : Context} {i : Nat} (h : spliceFirst c i = some c2) :
    c2.containers = c.containers ∧ c2.scroll_delta = c.scroll_delta := by
  unfold spliceFirst at h
  split at h
  · injection h with h2
    subst h2
    exact ⟨rfl, rfl⟩
  · split at h
    · cases h
    · split at h
      · cases h
      · exact patchJump_fields h
  · cases h

theorem spliceMiddle_fields {c c2 : Context} {i : Nat} (h : spliceMiddle c i = some c2) :
    c2.containers = c.containers ∧ c2.scroll_delta = c.scroll_delta := by
  unfold spliceMiddle at h
  split at h
  · cases h
  · split at h
    · cases h
    · split at h
      · cases h
      · split at h
        · cases h
        · split at h
          · cases h
          · exact patchJump_fields h

theorem spliceLast_fields {c c2 : Context} {i : Nat} (h : spliceLast c i = some c2) :
    c2.containers = c.containers ∧ c2.scroll_delta = c.scroll_delta := by
  unfold spliceLast at h
  split at h
  · cases h
  · split at h
    · cases h
    · exact patchJump_fields h

/-- The whole splice loop of `end()` only changes the command list:
containers and the pending scroll delta survive it unchanged. -/
theorem spliceLoop_fields :
    ∀ (l : List Nat) (c : Context) (b : Bool) (c2 : Context),
      spliceLoop c b l = some c2 →
      c2.containers = c.containers ∧ c2.scroll_delta = c.scroll_delta := by
  intro l
  induction l with
  | nil =>
    intro c b c2 h
    unfold spliceLoop at h
    injection h with h2
    subst h2
    exact ⟨rfl, rfl⟩
  | cons x rest ih =>
    intro c b c2 h
    unfold spliceLoop at h
    split at h
    · cases h
    next cA hA =>
      have h1 : cA.containers = c.containers ∧ cA.scroll_delta = c.scroll_delta := by
        split at hA
        · exact spliceFirst_fields hA
        · exact spliceMiddle_fields hA
      split at h
      · cases h
      next cB hB =>
        have h2 : cB.containers = cA.containers ∧ cB.scroll_delta = cA.scroll_delta := by
          split at hB
          · exact spliceLast_fields hB
          · injection hB with h3
            subst h3
            exact ⟨rfl, rfl⟩
        have h3 := ih cB false c2 h
        exact ⟨by rw [h3.1, h2.1, h1.1], by rw [h3.2, h2.2, h1.2]⟩

theorem get?_set_self2 {α : Type} {l : List α} {i : Nat} (a : α) (h : i < l.length) :
    (l.set i a).get? i = some a := by
  rw [List.get?_eq_getElem?, List.getElem?_set_eq_of_lt a h]

/-- The scroll-target block of `end()` adds the pending scroll delta
exactly once to the scroll-target container. -/
theorem endApplyScroll_spec {c c2 : Context} (h : endApplyScroll c = some c2) :
    c2.scroll_delta = c.scroll_delta ∧
    ∀ idx, c.scroll_target = some idx →
      (c2.containers.getD idx containerZeroed).scroll =
        vec2 ((c.containers.getD idx containerZeroed).scroll.x + c.scroll_delta.x)
             ((c.containers.getD idx containerZeroed).scroll.y + c.scroll_delta.y) := by
  unfold endApplyScroll at h
  split at h
  next index hsc =>
    split at h
    · cases h
    next cnt hcnt =>
      injection h with h2
      subst h2
      refine ⟨rfl, ?_⟩
      intro idx hidx
      rw [hsc] at hidx
      injection hidx with h3
      subst h3
      rw [get?_some_getD (get?_set_self2 _ (get?_some_lt hcnt)) _, get?_some_getD hcnt]
  next hsc =>
    injection h with h2
    subst h2
    refine ⟨rfl, ?_⟩
    intro idx hidx
    rw [hsc] at hidx
    cases hidx

theorem endRetainFocus_fields (c : Context) :
    (endRetainFocus c).containers = c.containers ∧
    (endRetainFocus c).scroll_delta = c.scroll_delta := by
  unfold endRetainFocus
  split <;> exact ⟨rfl, rfl⟩

/-- The deferred bring-to-front block never touches scroll offsets. -/
theorem endBringToFront_scroll {c c2 : Context} (h : endBringToFront c = some c2) :
    c2.scroll_delta = c.scroll_delta ∧
    ∀ i, (c2.containers.getD i containerZeroed).scroll =
      (c.containers.getD i containerZeroed).scroll := by
  unfold endBringToFront at h
  split at h
  · -- next_hover_root = some index
    rename_i index heq
    split at h
    · -- a press is pending
      split at h
      · cases h
      · rename_i cnt hcnt
        split at h
        · -- bring to front: only zindex changes
          injection h with h2
          subst h2
          refine ⟨rfl, ?_⟩
          intro i
          by_cases hij : index = i
          · subst hij
            rw [get?_some_getD (get?_set_self2 _ (get?_some_lt hcnt)) _,
              get?_some_getD hcnt]
          · rw [getD_set_ne hij]
        · injection h with h2
          subst h2
          exact ⟨rfl, fun i => rfl⟩
    · injection h with h2
      subst h2
      exact ⟨rfl, fun i => rfl⟩
  · injection h with h2
    subst h2
    exact ⟨rfl, fun i => rfl⟩

/-- C6 (amended): `input_scroll` overwrites the pending scroll delta
(`self.scroll_delta = delta`), so of two calls between frames only the
*last* delta survives; `end()` then adds that delta exactly once to
the scroll-target container's offset and resets the pending delta to
zero. -/
theorem scroll_overwrite_applied_once (c : Context) (d1 d2 : Vec2) (idx : Nat) (c2 : Context)
    (htgt : c.scroll_target = some idx)
    (hend : ctxEnd (inputScroll (inputScroll c d1) d2) = some c2) :
    (c2.containers.getD idx containerZeroed).scroll =
      vec2 ((c.containers.getD idx containerZeroed).scroll.x + d2.x)
           ((c.containers.getD idx containerZeroed).scroll.y + d2.y) ∧
    c2.scroll_delta = vec2 0 0 := by
  have hcomp : inputScroll (inputScroll c d1) d2 = { c with scroll_delta := d2 } := rfl
  rw [hcomp] at hend
  unfold ctxEnd at hend
  split at hend
  · rw [Option.bind_eq_some] at hend
    obtain ⟨cA, hA, hend⟩ := hend
    rw [Option.bind_eq_some] at hend
    obtain ⟨cC, hC, hend⟩ := hend
    have h1 := endApplyScroll_spec hA
    have h2 := endRetainFocus_fields cA
    have h3 := endBringToFront_scroll hC
    have hs := spliceLoop_fields _ _ _ _ hend
    constructor
    · calc (c2.containers.getD idx containerZeroed).scroll
          = (cC.containers.getD idx containerZeroed).scroll := by
            rw [hs.1]
            rfl
      _ = ((endRetainFocus cA).containers.getD idx containerZeroed).scroll := h3.2 idx
      _ = (cA.containers.getD idx containerZeroed).scroll := by rw [h2.1]
      _ = _ := h1.2 idx htgt
    · rw [hs.2]
      rfl
  · cases hend

set_option maxRecDepth 8000 in
set_option maxHeartbeats 4000000 in
/-- Witness for C6: pending deltas (1,2) then (10,20) on a container
with scroll offset (5,5); `end()` leaves (15,25) and a zero pending
delta. -/
theorem scroll_overwrite_applied_once_witness :
    ((ctxEnd (inputScroll (inputScroll c6Ctx (vec2 1 2)) (vec2 10 20))).map
      fun c => ((c.containers.getD 0 containerZeroed).scroll, c.scroll_delta)) =
      some (vec2 15 25, vec2 0 0) := by
  obtain ⟨c2, h2⟩ :
      ∃ c2, ctxEnd (inputScroll (inputScroll c6Ctx (vec2 1 2)) (vec2 10 20)) = some c2 :=
    ⟨_, rfl⟩
  have h := scroll_overwrite_applied_once c6Ctx (vec2 1 2) (vec2 10 20) 0 c2 rfl h2
  rw [h2, Option.map_some']
  exact congrArg some (by rw [h.1, h.2]; decide)

end Microui
